import Mathlib

/-!
Verification of the feature-extraction core of the stability model
(`custom_data_training.py`).  Real-valued quantities of the source are
modelled with `ℚ`; Python's stable `sorted(items, key=λ x: x.position.y)`
is modelled by the stable `List.insertionSort` on the same key; Python's
raising division is modelled separately in an `Option`-valued variant
(`divE` and the `...E` calculators), while the plain variants use total
field division for the divisions the source guards.
-/

namespace StabilityModel

structure Position where
  x : ℚ
  y : ℚ
  z : ℚ
deriving DecidableEq, Repr

structure Dimensions where
  width : ℚ
  height : ℚ
  depth : ℚ
deriving DecidableEq, Repr

structure Item where
  id : String
  position : Position
  dimensions : Dimensions
  weight : ℚ
deriving DecidableEq, Repr

structure Box where
  width : ℚ
  height : ℚ
  depth : ℚ
deriving DecidableEq, Repr

/-- The process-wide default container, `BOX = {"width": 100, "height": 100, "depth": 100}`. -/
def BOX : Box := ⟨100, 100, 100⟩

/-- Python's two-argument `min` on the rational model (kernel-reducible). -/
def pymin (a b : ℚ) : ℚ := if a ≤ b then a else b

/-- Python's two-argument `max` on the rational model (kernel-reducible). -/
def pymax (a b : ℚ) : ℚ := if b ≤ a then a else b

theorem pymin_eq (a b : ℚ) : pymin a b = min a b := by
  unfold pymin
  split
  · exact (min_eq_left (by assumption)).symm
  · exact (min_eq_right (le_of_not_le (by assumption))).symm

theorem pymax_eq (a b : ℚ) : pymax a b = max a b := by
  unfold pymax
  split
  · exact (max_eq_left (by assumption)).symm
  · exact (max_eq_right (le_of_not_le (by assumption))).symm

/-- Embedding of `calculate_item_center`. -/
def calculate_item_center (item : Item) : Position :=
  ⟨item.position.x + item.dimensions.width / 2,
   item.position.y + item.dimensions.height / 2,
   item.position.z + item.dimensions.depth / 2⟩

/-- Embedding of `calculate_overlap_area`: overlap of the x–z projections. -/
def calculate_overlap_area (item_a item_b : Item) : ℚ :=
  let a_min_x := item_a.position.x
  let a_max_x := item_a.position.x + item_a.dimensions.width
  let a_min_z := item_a.position.z
  let a_max_z := item_a.position.z + item_a.dimensions.depth
  let b_min_x := item_b.position.x
  let b_max_x := item_b.position.x + item_b.dimensions.width
  let b_min_z := item_b.position.z
  let b_max_z := item_b.position.z + item_b.dimensions.depth
  let overlap_width := pymin a_max_x b_max_x - pymax a_min_x b_min_x
  let overlap_depth := pymin a_max_z b_max_z - pymax a_min_z b_min_z
  if 0 < overlap_width ∧ 0 < overlap_depth then overlap_width * overlap_depth else 0

/-- Embedding of `is_below`: `item_a` directly supports `item_b`. -/
def is_below (item_a item_b : Item) : Bool :=
  let item_a_top := item_a.position.y + item_a.dimensions.height
  let item_b_bottom := item_b.position.y
  decide (|item_a_top - item_b_bottom| < 1 / 1000) &&
    decide (0 < calculate_overlap_area item_a item_b)

structure CogResult where
  cog : Position
  penalty : ℚ
deriving DecidableEq, Repr

/-- Embedding of `calculate_cog_penalty`.  The Python accumulation loop over
`weighted_items` is rendered as sums over the same list. -/
def calculate_cog_penalty (items : List Item) (box : Box) : CogResult :=
  let weighted_items := items.filter fun i => decide (0 < i.weight)
  if weighted_items.length = 0 then
    ⟨⟨box.width / 2, 0, box.depth / 2⟩, 0⟩
  else
    let total_weight := (weighted_items.map Item.weight).sum
    let cog_x := (weighted_items.map fun i => (calculate_item_center i).x * i.weight).sum
    let cog_y := (weighted_items.map fun i => (calculate_item_center i).y * i.weight).sum
    let cog_z := (weighted_items.map fun i => (calculate_item_center i).z * i.weight).sum
    ⟨⟨cog_x / total_weight, cog_y / total_weight, cog_z / total_weight⟩, 0⟩

/-- The inner accumulation shared by the support-ratio and overhang loops:
the summed overlap with every other item (`p.id ≠ item.id`) that `is_below` the item. -/
def supported_area (items : List Item) (item : Item) : ℚ :=
  ((items.filter fun p => decide (p.id ≠ item.id) && is_below p item).map
    fun p => calculate_overlap_area p item).sum

structure SupportResult where
  average : ℚ
  penalty : ℚ
deriving DecidableEq, Repr

/-- The per-item ratio of `calculate_support_ratio_penalty`:
`min(1.0, supported_area / base_area) if base_area > 0 else 0`. -/
def support_ratio_one (items : List Item) (item : Item) : ℚ :=
  let base_area := item.dimensions.width * item.dimensions.depth
  if 0 < base_area then pymin 1 (supported_area items item / base_area) else 0

/-- Embedding of `calculate_support_ratio_penalty`. -/
def calculate_support_ratio_penalty (items : List Item) : SupportResult :=
  let non_floor_items := items.filter fun i => decide (0 < i.position.y)
  if non_floor_items.length = 0 then ⟨1, 0⟩
  else
    let total_ratio := (non_floor_items.map fun item => support_ratio_one items item).sum
    ⟨total_ratio / (non_floor_items.length : ℚ), 0⟩

structure OverhangResult where
  total_overhang : ℚ
  penalty : ℚ
deriving DecidableEq, Repr

/-- The per-item contribution of `calculate_overhang_penalty`
(the loop adds `unsupported_area / perimeter` only when `perimeter > 0`). -/
def overhang_one (items : List Item) (item : Item) : ℚ :=
  let base_area := item.dimensions.width * item.dimensions.depth
  let perimeter := 2 * (item.dimensions.width + item.dimensions.depth)
  let supported := pymin (supported_area items item) base_area
  let unsupported_area := pymax 0 (base_area - supported)
  if 0 < perimeter then unsupported_area / perimeter else 0

/-- Embedding of `calculate_overhang_penalty`. -/
def calculate_overhang_penalty (items : List Item) : OverhangResult :=
  let non_floor_items := items.filter fun i => decide (0 < i.position.y)
  if non_floor_items.length = 0 then ⟨0, 0⟩
  else
    ⟨(non_floor_items.map fun item => overhang_one items item).sum, 0⟩

/-- The sort key relation of `sorted(items, key=λ x: x.position.y)`. -/
def sort_le (a b : Item) : Prop := a.position.y ≤ b.position.y

instance : DecidableRel sort_le := fun a b =>
  inferInstanceAs (Decidable (a.position.y ≤ b.position.y))

instance : IsTotal Item sort_le := ⟨fun a b => le_total a.position.y b.position.y⟩

instance : IsTrans Item sort_le := ⟨fun _ _ _ h h' => le_trans h h'⟩

/-- The four per-item slots written at indices `6 + i*4 .. 6 + i*4 + 3`
when a sorted item exists at index `i`, and the zero padding otherwise. -/
def per_item_block (sorted_items : List Item) (box : Box) (i : Nat) : List ℚ :=
  match sorted_items[i]? with
  | some item =>
    let volume := item.dimensions.width * item.dimensions.height * item.dimensions.depth
    let base_area := item.dimensions.width * item.dimensions.depth
    let center := calculate_item_center item
    [pymin 1 (item.weight / 20), pymin 1 (volume / 100000), pymin 1 (base_area / 10000),
     pymin 1 (center.y / box.height)]
  | none => [0, 0, 0, 0]

/-- Embedding of `extract_features`: the 30-slot feature vector. -/
def extract_features (items : List Item) (box : Box) : List ℚ :=
  if items.length = 0 then
    [1 / 2, 0, 1 / 2, 1, 0, 0] ++ List.replicate 24 0
  else
    let sorted_items := List.insertionSort sort_le items
    let cog_result := calculate_cog_penalty sorted_items box
    let f0 := pymin 1 (pymax 0 (cog_result.cog.x / box.width))
    let f1 := pymin 1 (pymax 0 (cog_result.cog.y / box.height))
    let f2 := pymin 1 (pymax 0 (cog_result.cog.z / box.depth))
    let support_result := calculate_support_ratio_penalty sorted_items
    let overhang_result := calculate_overhang_penalty sorted_items
    let box_perimeter := 2 * (box.width + box.depth)
    let f4 := pymin 1 (overhang_result.total_overhang / box_perimeter)
    let f5 := pymin 1 ((items.length : ℚ) / 10)
    [f0, f1, f2, support_result.average, f4, f5] ++
      ((List.range 6).map fun i => per_item_block sorted_items box i).flatten

/-! ### Basic lemmas about the calculators -/

theorem overlap_area_nonneg (a b : Item) : 0 ≤ calculate_overlap_area a b := by
  unfold calculate_overlap_area
  dsimp only
  split
  · next h => exact (mul_pos h.1 h.2).le
  · exact le_refl 0

theorem supported_area_nonneg (items : List Item) (item : Item) :
    0 ≤ supported_area items item := by
  refine List.sum_nonneg fun x hx => ?_
  obtain ⟨p, _, rfl⟩ := List.mem_map.1 hx
  exact overlap_area_nonneg p item

theorem support_ratio_one_bounds (items : List Item) (item : Item) :
    0 ≤ support_ratio_one items item ∧ support_ratio_one items item ≤ 1 := by
  unfold support_ratio_one
  dsimp only
  split
  · next h =>
    rw [pymin_eq]
    exact ⟨le_min one_pos.le (div_nonneg (supported_area_nonneg items item) h.le),
      min_le_left 1 _⟩
  · exact ⟨le_refl 0, zero_le_one⟩

theorem support_average_bounds (items : List Item) :
    0 ≤ (calculate_support_ratio_penalty items).average ∧
      (calculate_support_ratio_penalty items).average ≤ 1 := by
  unfold calculate_support_ratio_penalty
  dsimp only
  split
  · exact ⟨zero_le_one, le_refl 1⟩
  · next h =>
    set non_floor_items := items.filter fun i => decide (0 < i.position.y) with hnf
    have hpos : (0 : ℚ) < (non_floor_items.length : ℚ) := by
      exact_mod_cast Nat.pos_of_ne_zero h
    have hsum0 : 0 ≤ (non_floor_items.map fun item => support_ratio_one items item).sum := by
      refine List.sum_nonneg fun x hx => ?_
      obtain ⟨p, _, rfl⟩ := List.mem_map.1 hx
      exact (support_ratio_one_bounds items p).1
    have hsum1 : (non_floor_items.map fun item => support_ratio_one items item).sum ≤
        (non_floor_items.length : ℚ) := by
      have := List.sum_le_card_nsmul (non_floor_items.map fun item => support_ratio_one items item)
        1 (by
          intro x hx
          obtain ⟨p, _, rfl⟩ := List.mem_map.1 hx
          exact (support_ratio_one_bounds items p).2)
      simpa [List.length_map, nsmul_eq_mul] using this
    exact ⟨div_nonneg hsum0 hpos.le, (div_le_one hpos).2 hsum1⟩

theorem overhang_one_nonneg (items : List Item) (item : Item) :
    0 ≤ overhang_one items item := by
  unfold overhang_one
  dsimp only
  split
  · next h => exact div_nonneg (by rw [pymax_eq]; exact le_max_left 0 _) h.le
  · exact le_refl 0

theorem total_overhang_nonneg (items : List Item) :
    0 ≤ (calculate_overhang_penalty items).total_overhang := by
  unfold calculate_overhang_penalty
  dsimp only
  split
  · exact le_refl 0
  · refine List.sum_nonneg fun x hx => ?_
    obtain ⟨p, _, rfl⟩ := List.mem_map.1 hx
    exact overhang_one_nonneg items p

theorem pymin_one_bounds {x : ℚ} (hx : 0 ≤ x) : 0 ≤ pymin 1 x ∧ pymin 1 x ≤ 1 := by
  rw [pymin_eq]
  exact ⟨le_min one_pos.le hx, min_le_left 1 x⟩

theorem clamp01_bounds (x : ℚ) : 0 ≤ pymin 1 (pymax 0 x) ∧ pymin 1 (pymax 0 x) ≤ 1 := by
  rw [pymin_eq, pymax_eq]
  exact ⟨le_min one_pos.le (le_max_left 0 x), min_le_left 1 _⟩

theorem per_item_block_length (sorted_items : List Item) (box : Box) (i : Nat) :
    (per_item_block sorted_items box i).length = 4 := by
  unfold per_item_block
  cases sorted_items[i]? <;> rfl

/-! ### The claims -/

/-- C2: on the empty item list `extract_features` returns exactly the sentinel
vector: slot 0 = 0.5, slot 1 = 0, slot 2 = 0.5, slot 3 = 1.0, slot 4 = 0,
slot 5 = 0, and the remaining 24 slots all 0. -/
theorem extract_features_empty_sentinel (box : Box) :
    extract_features [] box =
      [1/2, 0, 1/2, 1, 0, 0] ++ List.replicate 24 0 := rfl

/-- C3: `is_below a b` holds exactly when the vertical gap between `a`'s top
face and `b`'s bottom face is (strictly) within the epsilon 0.001 and the
horizontal overlap area of the two items is strictly positive. -/
theorem is_below_iff (a b : Item) :
    is_below a b = true ↔
      |(a.position.y + a.dimensions.height) - b.position.y| < 1/1000 ∧
        0 < calculate_overlap_area a b := by
  simp [is_below]

/-- C9: `extract_features` is a pure function of its input — two calls on
equal (if not identical) item lists and containers return identical vectors. -/
theorem extract_features_deterministic (items₁ items₂ : List Item) (box₁ box₂ : Box)
    (h : items₁ = items₂) (h' : box₁ = box₂) :
    extract_features items₁ box₁ = extract_features items₂ box₂ := by
  rw [h, h']

theorem extract_features_deterministic_witness :
    extract_features [⟨"w", ⟨1, 2, 3⟩, ⟨4, 5, 6⟩, 7⟩] BOX =
      extract_features [⟨"w", ⟨1, 2, 3⟩, ⟨4, 5, 6⟩, 7⟩] BOX :=
  extract_features_deterministic _ _ _ _ rfl rfl

/-- C5: the center-of-gravity calculator returns the weighted average of the
geometric centers of the items of positive weight, and the container-centered
floor point `(width/2, 0, depth/2)` when no item has positive weight. -/
theorem calculate_cog_penalty_characterization (items : List Item) (box : Box) :
    (calculate_cog_penalty items box).cog =
      if (items.filter fun i => decide (0 < i.weight)) = [] then
        ⟨box.width / 2, 0, box.depth / 2⟩
      else
        ⟨((items.filter fun i => decide (0 < i.weight)).map
            fun i => (calculate_item_center i).x * i.weight).sum /
          ((items.filter fun i => decide (0 < i.weight)).map Item.weight).sum,
         ((items.filter fun i => decide (0 < i.weight)).map
            fun i => (calculate_item_center i).y * i.weight).sum /
          ((items.filter fun i => decide (0 < i.weight)).map Item.weight).sum,
         ((items.filter fun i => decide (0 < i.weight)).map
            fun i => (calculate_item_center i).z * i.weight).sum /
          ((items.filter fun i => decide (0 < i.weight)).map Item.weight).sum⟩ := by
  unfold calculate_cog_penalty
  by_cases h : (items.filter fun i => decide (0 < i.weight)) = []
  · rw [if_pos h]
    simp [h, List.length_eq_zero]
  · rw [if_neg h]
    simp only [List.length_eq_zero, h, if_false]

/-! ### C4: the support-ratio calculator against the spec wording -/

theorem overlap_area_eq_zero_of_neg (a b : Item)
    (h : b.dimensions.width < 0 ∨ b.dimensions.depth < 0) :
    calculate_overlap_area a b = 0 := by
  unfold calculate_overlap_area
  dsimp only
  rw [if_neg]
  rintro ⟨hw, hd⟩
  rcases h with h | h
  · have h1 : pymin (a.position.x + a.dimensions.width) (b.position.x + b.dimensions.width) ≤
        b.position.x + b.dimensions.width := by
      rw [pymin_eq]; exact min_le_right _ _
    have h2 : b.position.x ≤ pymax a.position.x b.position.x := by
      rw [pymax_eq]; exact le_max_right _ _
    linarith
  · have h1 : pymin (a.position.z + a.dimensions.depth) (b.position.z + b.dimensions.depth) ≤
        b.position.z + b.dimensions.depth := by
      rw [pymin_eq]; exact min_le_right _ _
    have h2 : b.position.z ≤ pymax a.position.z b.position.z := by
      rw [pymax_eq]; exact le_max_right _ _
    linarith

theorem supported_area_eq_zero_of_base_neg (items : List Item) (item : Item)
    (h : item.dimensions.width * item.dimensions.depth < 0) :
    supported_area items item = 0 := by
  have hwd : item.dimensions.width < 0 ∨ item.dimensions.depth < 0 := by
    rcases mul_neg_iff.1 h with ⟨_, h2⟩ | ⟨h1, _⟩
    · exact Or.inr h2
    · exact Or.inl h1
  refine List.sum_eq_zero fun x hx => ?_
  obtain ⟨p, _, rfl⟩ := List.mem_map.1 hx
  exact overlap_area_eq_zero_of_neg p item hwd

/-- The spec wording of the per-item support ratio: `min(1, supportedArea / baseArea)`,
with the ratio 0 when `baseArea` is 0. -/
def support_ratio_spec_one (items : List Item) (item : Item) : ℚ :=
  let base_area := item.dimensions.width * item.dimensions.depth
  if base_area = 0 then 0 else pymin 1 (supported_area items item / base_area)

/-- The spec wording of the support-ratio calculator: the arithmetic mean of the
per-item ratios over the items with `y > 0`, defaulting to 1.0 when there are none. -/
def calculate_support_ratio_spec (items : List Item) : ℚ :=
  let non_floor_items := items.filter fun i => decide (0 < i.position.y)
  if non_floor_items = [] then 1
  else (non_floor_items.map fun item => support_ratio_spec_one items item).sum /
    (non_floor_items.length : ℚ)

theorem support_ratio_one_eq_spec (items : List Item) (item : Item) :
    support_ratio_one items item = support_ratio_spec_one items item := by
  unfold support_ratio_one support_ratio_spec_one
  dsimp only
  rcases lt_trichotomy (item.dimensions.width * item.dimensions.depth) 0 with h | h | h
  · rw [if_neg (not_lt.2 h.le), if_neg h.ne]
    rw [supported_area_eq_zero_of_base_neg items item h, zero_div, pymin_eq]
    exact (min_eq_right zero_le_one).symm
  · rw [if_neg (by rw [h]; exact lt_irrefl 0), if_pos h]
  · rw [if_pos h, if_neg h.ne']

/-- C4: the support-ratio calculator returns the arithmetic mean, over the items
with `y > 0`, of `min(1, supportedArea / baseArea)` (ratio 0 at zero base area,
`supportedArea` summing overlaps with the distinct-identifier items below), and
1.0 when there are no such items. -/
theorem calculate_support_ratio_penalty_meets_spec (items : List Item) :
    (calculate_support_ratio_penalty items).average = calculate_support_ratio_spec items := by
  unfold calculate_support_ratio_penalty calculate_support_ratio_spec
  dsimp only
  have hfun : (fun item => support_ratio_one items item) =
      fun item => support_ratio_spec_one items item :=
    funext fun item => support_ratio_one_eq_spec items item
  by_cases h : (items.filter fun i => decide (0 < i.position.y)) = []
  · rw [if_pos (by rw [h]; rfl), if_pos h]
  · rw [if_neg (fun hl => h (List.length_eq_zero.1 hl)), if_neg h, hfun]

/-! ### C1: vector length and range on the default container -/

/-- C1: for items with positive dimensions, non-negative positions and
non-negative weights, `extract_features` on the default container produces a
vector of length 30 whose entries all lie in `[0, 1]`. -/
theorem extract_features_length_and_range (items : List Item)
    (h : ∀ i ∈ items, 0 < i.dimensions.width ∧ 0 < i.dimensions.height ∧
      0 < i.dimensions.depth ∧ 0 ≤ i.position.x ∧ 0 ≤ i.position.y ∧ 0 ≤ i.position.z ∧
      0 ≤ i.weight) :
    (extract_features items BOX).length = 30 ∧
      ∀ q ∈ extract_features items BOX, 0 ≤ q ∧ q ≤ 1 := by
  by_cases hemp : items.length = 0
  · rw [extract_features, if_pos hemp]
    refine ⟨rfl, fun q hq => ?_⟩
    simp only [List.mem_append, List.mem_cons, List.not_mem_nil, or_false,
      List.mem_replicate] at hq
    rcases hq with (rfl | rfl | rfl | rfl | rfl | rfl) | ⟨-, rfl⟩ <;> norm_num
  · rw [extract_features, if_neg hemp]
    dsimp only
    constructor
    · have h4 : List.map
          (List.length ∘ fun i => per_item_block (List.insertionSort sort_le items) BOX i)
          (List.range 6) = List.map (fun _ => 4) (List.range 6) :=
        List.map_congr_left fun a _ => per_item_block_length _ _ a
      simp only [List.length_append, List.length_cons, List.length_nil, List.length_flatten,
        List.map_map, h4]
      rfl
    · intro q hq
      simp only [List.mem_append, List.mem_cons, List.not_mem_nil, or_false] at hq
      rcases hq with (rfl | rfl | rfl | rfl | rfl | rfl) | hq
      · exact clamp01_bounds _
      · exact clamp01_bounds _
      · exact clamp01_bounds _
      · exact support_average_bounds _
      · refine pymin_one_bounds (div_nonneg (total_overhang_nonneg _) ?_)
        norm_num [BOX]
      · exact pymin_one_bounds (div_nonneg (Nat.cast_nonneg _) (by norm_num))
      · rw [List.mem_flatten] at hq
        obtain ⟨L, hL, hqL⟩ := hq
        obtain ⟨i, _, rfl⟩ := List.mem_map.1 hL
        unfold per_item_block at hqL
        split at hqL
        · next item hblock =>
          have hmem : item ∈ items :=
            (List.mem_insertionSort sort_le).1 (List.getElem?_mem hblock)
          obtain ⟨hw, hh, hd, _, hy, _, hwt⟩ := h item hmem
          dsimp only at hqL
          simp only [List.mem_cons, List.not_mem_nil, or_false] at hqL
          rcases hqL with rfl | rfl | rfl | rfl
          · exact pymin_one_bounds (div_nonneg hwt (by norm_num))
          · exact pymin_one_bounds
              (div_nonneg (mul_nonneg (mul_nonneg hw.le hh.le) hd.le) (by norm_num))
          · exact pymin_one_bounds (div_nonneg (mul_nonneg hw.le hd.le) (by norm_num))
          · refine pymin_one_bounds (div_nonneg ?_ (by norm_num [BOX]))
            unfold calculate_item_center
            dsimp only
            linarith
        · simp only [List.mem_cons, List.not_mem_nil, or_false] at hqL
          rcases hqL with rfl | rfl | rfl | rfl <;> norm_num

theorem extract_features_length_and_range_witness :
    (extract_features [⟨"a", ⟨0, 0, 0⟩, ⟨10, 10, 10⟩, 5⟩] BOX).length = 30 ∧
      ∀ q ∈ extract_features [⟨"a", ⟨0, 0, 0⟩, ⟨10, 10, 10⟩, 5⟩] BOX, 0 ≤ q ∧ q ≤ 1 :=
  extract_features_length_and_range _ (by
    intro i hi
    simp only [List.mem_singleton] at hi
    subst hi
    norm_num)

/-! ### C7: slots 6–29 depend only on the first six sorted items -/

theorem per_item_block_congr (s₁ s₂ : List Item) (box : Box) (i : Nat)
    (h : s₁[i]? = s₂[i]?) : per_item_block s₁ box i = per_item_block s₂ box i := by
  unfold per_item_block
  rw [h]

/-- C7: whenever two item lists agree on the first six items of their stable
ascending sort by `y`, the feature vectors agree on slots 6 through 29. -/
theorem extract_features_tail_of_take6_eq (items₁ items₂ : List Item) (box : Box)
    (h : (List.insertionSort sort_le items₁).take 6 =
      (List.insertionSort sort_le items₂).take 6) :
    (extract_features items₁ box).drop 6 = (extract_features items₂ box).drop 6 := by
  have hlen : items₁.length = 0 ↔ items₂.length = 0 := by
    have := congrArg List.length h
    simp only [List.length_take, List.length_insertionSort] at this
    omega
  by_cases h₁ : items₁.length = 0
  · rw [extract_features, extract_features, if_pos h₁, if_pos (hlen.1 h₁)]
  · have h₂ : ¬ items₂.length = 0 := fun hh => h₁ (hlen.2 hh)
    rw [extract_features, extract_features, if_neg h₁, if_neg h₂]
    dsimp only
    rw [List.drop_left' (by rfl), List.drop_left' (by rfl)]
    congr 1
    refine List.map_congr_left fun i hi => ?_
    have hi6 : i < 6 := List.mem_range.1 hi
    refine per_item_block_congr _ _ box i ?_
    calc (List.insertionSort sort_le items₁)[i]?
        = ((List.insertionSort sort_le items₁).take 6)[i]? := by
          rw [List.getElem?_take, if_pos hi6]
      _ = ((List.insertionSort sort_le items₂).take 6)[i]? := by rw [h]
      _ = (List.insertionSort sort_le items₂)[i]? := by
          rw [List.getElem?_take, if_pos hi6]

theorem extract_features_tail_of_take6_eq_witness :
    (extract_features
        [⟨"a", ⟨0, 0, 0⟩, ⟨1, 1, 1⟩, 1⟩, ⟨"b", ⟨0, 1, 0⟩, ⟨1, 1, 1⟩, 1⟩,
         ⟨"c", ⟨0, 2, 0⟩, ⟨1, 1, 1⟩, 1⟩, ⟨"d", ⟨0, 3, 0⟩, ⟨1, 1, 1⟩, 1⟩,
         ⟨"e", ⟨0, 4, 0⟩, ⟨1, 1, 1⟩, 1⟩, ⟨"f", ⟨0, 5, 0⟩, ⟨1, 1, 1⟩, 1⟩] BOX).drop 6 =
      (extract_features
        [⟨"a", ⟨0, 0, 0⟩, ⟨1, 1, 1⟩, 1⟩, ⟨"b", ⟨0, 1, 0⟩, ⟨1, 1, 1⟩, 1⟩,
         ⟨"c", ⟨0, 2, 0⟩, ⟨1, 1, 1⟩, 1⟩, ⟨"d", ⟨0, 3, 0⟩, ⟨1, 1, 1⟩, 1⟩,
         ⟨"e", ⟨0, 4, 0⟩, ⟨1, 1, 1⟩, 1⟩, ⟨"f", ⟨0, 5, 0⟩, ⟨1, 1, 1⟩, 1⟩,
         ⟨"g", ⟨0, 6, 0⟩, ⟨1, 1, 1⟩, 1⟩] BOX).drop 6 :=
  extract_features_tail_of_take6_eq _ _ BOX (by rfl)

/-! ### C8: permutation invariance -/

/-- The strict version of the sort key, used to identify the two stable sorts. -/
def sort_lt (a b : Item) : Prop := a.position.y < b.position.y

instance : IsAntisymm Item sort_lt := ⟨fun _ _ h h' => (lt_asymm h h').elim⟩

theorem insertionSort_eq_of_perm_distinct (items₁ items₂ : List Item)
    (hp : items₁.Perm items₂)
    (hd : items₁.Pairwise fun a b => a.position.y ≠ b.position.y) :
    List.insertionSort sort_le items₁ = List.insertionSort sort_le items₂ := by
  have hsymm : ∀ {x y : Item}, x.position.y ≠ y.position.y → y.position.y ≠ x.position.y :=
    fun h => h.symm
  have hperm : (List.insertionSort sort_le items₁).Perm (List.insertionSort sort_le items₂) :=
    (List.perm_insertionSort _ _).trans (hp.trans (List.perm_insertionSort _ _).symm)
  have hd₁ : (List.insertionSort sort_le items₁).Pairwise
      fun a b => a.position.y ≠ b.position.y :=
    ((List.perm_insertionSort sort_le items₁).pairwise_iff hsymm).mpr hd
  have hd₂ : (List.insertionSort sort_le items₂).Pairwise
      fun a b => a.position.y ≠ b.position.y :=
    ((List.perm_insertionSort sort_le items₂).pairwise_iff hsymm).mpr
      ((hp.pairwise_iff hsymm).mp hd)
  have hs₁ : List.Sorted sort_lt (List.insertionSort sort_le items₁) :=
    List.Pairwise.imp₂ (fun _ _ hle hne => lt_of_le_of_ne hle hne)
      (List.sorted_insertionSort sort_le items₁) hd₁
  have hs₂ : List.Sorted sort_lt (List.insertionSort sort_le items₂) :=
    List.Pairwise.imp₂ (fun _ _ hle hne => lt_of_le_of_ne hle hne)
      (List.sorted_insertionSort sort_le items₂) hd₂
  exact List.eq_of_perm_of_sorted hperm hs₁ hs₂

/-- C8 counterexample: two items at the same height with different weights; the
swapped list is a permutation of the original yet yields a different feature
vector (the per-item slots 6 and 10 trade places). -/
theorem extract_features_perm_counterexample :
    ([⟨"a", ⟨0, 0, 0⟩, ⟨10, 10, 10⟩, 5⟩, ⟨"b", ⟨20, 0, 0⟩, ⟨10, 10, 10⟩, 10⟩] : List Item).Perm
        [⟨"b", ⟨20, 0, 0⟩, ⟨10, 10, 10⟩, 10⟩, ⟨"a", ⟨0, 0, 0⟩, ⟨10, 10, 10⟩, 5⟩] ∧
      extract_features
          [⟨"a", ⟨0, 0, 0⟩, ⟨10, 10, 10⟩, 5⟩, ⟨"b", ⟨20, 0, 0⟩, ⟨10, 10, 10⟩, 10⟩] BOX ≠
        extract_features
          [⟨"b", ⟨20, 0, 0⟩, ⟨10, 10, 10⟩, 10⟩, ⟨"a", ⟨0, 0, 0⟩, ⟨10, 10, 10⟩, 5⟩] BOX := by
  refine ⟨List.Perm.swap _ _ _, ?_⟩
  norm_num [extract_features, calculate_cog_penalty, calculate_support_ratio_penalty,
    calculate_overhang_penalty, support_ratio_one, overhang_one, supported_area,
    calculate_overlap_area, calculate_item_center, is_below, per_item_block,
    pymin, pymax, sort_le, BOX, List.range, List.range.loop]

/-- C8 (amended): for item lists whose `y`-positions are pairwise distinct,
`extract_features` is invariant under permutations of the list. -/
theorem extract_features_perm_invariant_of_distinct_y (items₁ items₂ : List Item) (box : Box)
    (hp : items₁.Perm items₂)
    (hd : items₁.Pairwise fun a b => a.position.y ≠ b.position.y) :
    extract_features items₁ box = extract_features items₂ box := by
  have hsorted := insertionSort_eq_of_perm_distinct items₁ items₂ hp hd
  unfold extract_features
  rw [hp.length_eq, hsorted]

theorem extract_features_perm_invariant_of_distinct_y_witness :
    extract_features
        [⟨"a", ⟨0, 0, 0⟩, ⟨10, 10, 10⟩, 5⟩, ⟨"c", ⟨0, 5, 0⟩, ⟨2, 2, 2⟩, 1⟩] BOX =
      extract_features
        [⟨"c", ⟨0, 5, 0⟩, ⟨2, 2, 2⟩, 1⟩, ⟨"a", ⟨0, 0, 0⟩, ⟨10, 10, 10⟩, 5⟩] BOX :=
  extract_features_perm_invariant_of_distinct_y _ _ BOX (List.Perm.swap _ _ _)
    (by norm_num [List.pairwise_cons])

/-! ### C6: the error-aware model of the divisions

Python raises `ZeroDivisionError` on division by zero; `divE` models a
division that fails on a zero denominator, and the `...E` calculators repeat
the source's control flow with every division routed through `divE`. -/

/-- Division as Python performs it: `none` models the `ZeroDivisionError`. -/
def divE (a b : ℚ) : Option ℚ := if b = 0 then none else some (a / b)

/-- Error-aware `calculate_cog_penalty`. -/
def calculate_cog_penaltyE (items : List Item) (box : Box) : Option CogResult :=
  let weighted_items := items.filter fun i => decide (0 < i.weight)
  if weighted_items.length = 0 then
    some ⟨⟨box.width / 2, 0, box.depth / 2⟩, 0⟩
  else do
    let total_weight := (weighted_items.map Item.weight).sum
    let x ← divE ((weighted_items.map fun i => (calculate_item_center i).x * i.weight).sum)
      total_weight
    let y ← divE ((weighted_items.map fun i => (calculate_item_center i).y * i.weight).sum)
      total_weight
    let z ← divE ((weighted_items.map fun i => (calculate_item_center i).z * i.weight).sum)
      total_weight
    some ⟨⟨x, y, z⟩, 0⟩

/-- Error-aware per-item support ratio. -/
def support_ratio_oneE (items : List Item) (item : Item) : Option ℚ :=
  let base_area := item.dimensions.width * item.dimensions.depth
  if 0 < base_area then (divE (supported_area items item) base_area).map (pymin 1)
  else some 0

/-- Error-aware `calculate_support_ratio_penalty`. -/
def calculate_support_ratio_penaltyE (items : List Item) : Option SupportResult :=
  let non_floor_items := items.filter fun i => decide (0 < i.position.y)
  if non_floor_items.length = 0 then some ⟨1, 0⟩
  else do
    let ratios ← non_floor_items.mapM (support_ratio_oneE items)
    let average ← divE ratios.sum (non_floor_items.length : ℚ)
    some ⟨average, 0⟩

/-- Error-aware per-item overhang contribution. -/
def overhang_oneE (items : List Item) (item : Item) : Option ℚ :=
  let base_area := item.dimensions.width * item.dimensions.depth
  let perimeter := 2 * (item.dimensions.width + item.dimensions.depth)
  let supported := pymin (supported_area items item) base_area
  let unsupported_area := pymax 0 (base_area - supported)
  if 0 < perimeter then divE unsupported_area perimeter else some 0

/-- Error-aware `calculate_overhang_penalty`. -/
def calculate_overhang_penaltyE (items : List Item) : Option OverhangResult :=
  let non_floor_items := items.filter fun i => decide (0 < i.position.y)
  if non_floor_items.length = 0 then some ⟨0, 0⟩
  else do
    let contributions ← non_floor_items.mapM (overhang_oneE items)
    some ⟨contributions.sum, 0⟩

/-- Error-aware per-item feature block. -/
def per_item_blockE (sorted_items : List Item) (box : Box) (i : Nat) : Option (List ℚ) :=
  match sorted_items[i]? with
  | some item => do
    let volume := item.dimensions.width * item.dimensions.height * item.dimensions.depth
    let base_area := item.dimensions.width * item.dimensions.depth
    let center := calculate_item_center item
    let w ← divE item.weight 20
    let v ← divE volume 100000
    let b ← divE base_area 10000
    let cy ← divE center.y box.height
    some [pymin 1 w, pymin 1 v, pymin 1 b, pymin 1 cy]
  | none => some [0, 0, 0, 0]

/-- Error-aware `extract_features`. -/
def extract_featuresE (items : List Item) (box : Box) : Option (List ℚ) :=
  if items.length = 0 then
    some ([1 / 2, 0, 1 / 2, 1, 0, 0] ++ List.replicate 24 0)
  else do
    let sorted_items := List.insertionSort sort_le items
    let cog_result ← calculate_cog_penaltyE sorted_items box
    let q0 ← divE cog_result.cog.x box.width
    let q1 ← divE cog_result.cog.y box.height
    let q2 ← divE cog_result.cog.z box.depth
    let support_result ← calculate_support_ratio_penaltyE sorted_items
    let overhang_result ← calculate_overhang_penaltyE sorted_items
    let q4 ← divE overhang_result.total_overhang (2 * (box.width + box.depth))
    let q5 ← divE (items.length : ℚ) 10
    let blocks ← (List.range 6).mapM (per_item_blockE sorted_items box)
    some ([pymin 1 (pymax 0 q0), pymin 1 (pymax 0 q1), pymin 1 (pymax 0 q2),
           support_result.average, pymin 1 q4, pymin 1 q5] ++ blocks.flatten)

theorem divE_eq_some (a b : ℚ) (h : b ≠ 0) : divE a b = some (a / b) := by
  unfold divE
  rw [if_neg h]

theorem mapM_eq_map_of_some {α β : Type} (f : α → Option β) (g : α → β) :
    ∀ l : List α, (∀ a ∈ l, f a = some (g a)) → l.mapM f = some (l.map g) := by
  intro l
  induction l with
  | nil => intro _; rfl
  | cons a t ih =>
    intro h
    rw [List.mapM_cons, h a (List.mem_cons_self a t),
      ih fun x hx => h x (List.mem_cons_of_mem a hx)]
    rfl

theorem calculate_cog_penaltyE_eq (items : List Item) (box : Box) :
    calculate_cog_penaltyE items box = some (calculate_cog_penalty items box) := by
  unfold calculate_cog_penaltyE calculate_cog_penalty
  dsimp only
  by_cases h : (items.filter fun i => decide (0 < i.weight)).length = 0
  · rw [if_pos h, if_pos h]
  · rw [if_neg h, if_neg h]
    have hne : ((items.filter fun i => decide (0 < i.weight)).map Item.weight).sum ≠ 0 := by
      refine (List.sum_pos _ (fun x hx => ?_) (fun hnil => ?_)).ne'
      · obtain ⟨p, hp, rfl⟩ := List.mem_map.1 hx
        exact of_decide_eq_true (List.mem_filter.1 hp).2
      · rw [List.map_eq_nil_iff] at hnil
        exact h (by rw [hnil]; rfl)
    rw [divE_eq_some _ _ hne, divE_eq_some _ _ hne, divE_eq_some _ _ hne]
    rfl

theorem support_ratio_oneE_eq (items : List Item) (item : Item) :
    support_ratio_oneE items item = some (support_ratio_one items item) := by
  unfold support_ratio_oneE support_ratio_one
  dsimp only
  split
  · next h => rw [divE_eq_some _ _ h.ne']; rfl
  · rfl

theorem calculate_support_ratio_penaltyE_eq (items : List Item) :
    calculate_support_ratio_penaltyE items = some (calculate_support_ratio_penalty items) := by
  unfold calculate_support_ratio_penaltyE calculate_support_ratio_penalty
  dsimp only
  by_cases h : (items.filter fun i => decide (0 < i.position.y)).length = 0
  · rw [if_pos h, if_pos h]
  · rw [if_neg h, if_neg h]
    have hlen : ((items.filter fun i => decide (0 < i.position.y)).length : ℚ) ≠ 0 :=
      Nat.cast_ne_zero.2 h
    rw [mapM_eq_map_of_some _ _ _ fun a _ => support_ratio_oneE_eq items a]
    simp only [Option.bind_eq_bind, Option.some_bind]
    rw [divE_eq_some _ _ hlen]
    simp only [Option.bind_eq_bind, Option.some_bind]

theorem calculate_overhang_penaltyE_eq (items : List Item) :
    calculate_overhang_penaltyE items = some (calculate_overhang_penalty items) := by
  unfold calculate_overhang_penaltyE calculate_overhang_penalty
  dsimp only
  by_cases h : (items.filter fun i => decide (0 < i.position.y)).length = 0
  · rw [if_pos h, if_pos h]
  · rw [if_neg h, if_neg h]
    have hone : ∀ item, overhang_oneE items item = some (overhang_one items item) := by
      intro item
      unfold overhang_oneE overhang_one
      dsimp only
      split
      · next hp => rw [divE_eq_some _ _ hp.ne']
      · rfl
    rw [mapM_eq_map_of_some _ _ _ fun a _ => hone a]
    simp only [Option.bind_eq_bind, Option.some_bind]

theorem per_item_blockE_eq (sorted_items : List Item) (box : Box) (i : Nat)
    (hh : box.height ≠ 0) :
    per_item_blockE sorted_items box i = some (per_item_block sorted_items box i) := by
  unfold per_item_blockE per_item_block
  split
  · dsimp only
    rw [divE_eq_some _ _ (by norm_num : (20 : ℚ) ≠ 0)]
    simp only [Option.bind_eq_bind, Option.some_bind]
    rw [divE_eq_some _ _ (by norm_num : (100000 : ℚ) ≠ 0)]
    simp only [Option.bind_eq_bind, Option.some_bind]
    rw [divE_eq_some _ _ (by norm_num : (10000 : ℚ) ≠ 0)]
    simp only [Option.bind_eq_bind, Option.some_bind]
    rw [divE_eq_some _ _ hh]
    simp only [Option.bind_eq_bind, Option.some_bind]
  · rfl

theorem extract_featuresE_eq (items : List Item) (box : Box) (hw : box.width ≠ 0)
    (hh : box.height ≠ 0) (hd : box.depth ≠ 0) (hper : box.width + box.depth ≠ 0) :
    extract_featuresE items box = some (extract_features items box) := by
  unfold extract_featuresE extract_features
  dsimp only
  by_cases hemp : items.length = 0
  · rw [if_pos hemp, if_pos hemp]
  · rw [if_neg hemp, if_neg hemp]
    rw [calculate_cog_penaltyE_eq]
    simp only [Option.bind_eq_bind, Option.some_bind]
    rw [divE_eq_some _ _ hw]
    simp only [Option.bind_eq_bind, Option.some_bind]
    rw [divE_eq_some _ _ hh]
    simp only [Option.bind_eq_bind, Option.some_bind]
    rw [divE_eq_some _ _ hd]
    simp only [Option.bind_eq_bind, Option.some_bind]
    rw [calculate_support_ratio_penaltyE_eq]
    simp only [Option.bind_eq_bind, Option.some_bind]
    rw [calculate_overhang_penaltyE_eq]
    simp only [Option.bind_eq_bind, Option.some_bind]
    rw [divE_eq_some _ _ (mul_ne_zero two_ne_zero hper)]
    simp only [Option.bind_eq_bind, Option.some_bind]
    rw [divE_eq_some _ _ (by norm_num : (10 : ℚ) ≠ 0)]
    simp only [Option.bind_eq_bind, Option.some_bind]
    rw [mapM_eq_map_of_some _ _ _ fun i _ => per_item_blockE_eq _ box i hh]
    simp only [Option.bind_eq_bind, Option.some_bind]

/-- C6 (amended): the three calculators guard every division they perform and
never fail, for any item list; the assembler fails only through its unguarded
normalisations by the container dimensions and horizontal perimeter — whenever
the container's width, height, depth and `width + depth` are nonzero (as for
the default container) the assembler never fails either. -/
theorem division_hazards_guarded :
    (∀ (items : List Item) (box : Box),
        calculate_cog_penaltyE items box = some (calculate_cog_penalty items box)) ∧
      (∀ items : List Item,
        calculate_support_ratio_penaltyE items = some (calculate_support_ratio_penalty items)) ∧
      (∀ items : List Item,
        calculate_overhang_penaltyE items = some (calculate_overhang_penalty items)) ∧
      ∀ (items : List Item) (box : Box), box.width ≠ 0 → box.height ≠ 0 → box.depth ≠ 0 →
        box.width + box.depth ≠ 0 →
        extract_featuresE items box = some (extract_features items box) :=
  ⟨calculate_cog_penaltyE_eq, calculate_support_ratio_penaltyE_eq,
    calculate_overhang_penaltyE_eq, extract_featuresE_eq⟩

theorem division_hazards_guarded_witness :
    extract_featuresE [⟨"a", ⟨0, 1, 0⟩, ⟨2, 2, 2⟩, 3⟩] BOX =
      some (extract_features [⟨"a", ⟨0, 1, 0⟩, ⟨2, 2, 2⟩, 3⟩] BOX) :=
  division_hazards_guarded.2.2.2 _ BOX (by norm_num [BOX]) (by norm_num [BOX])
    (by norm_num [BOX]) (by norm_num [BOX])

/-- C6 counterexample: with a container whose horizontal perimeter is zero the
assembler's overhang normalisation divides by zero — the claimed guard does not
exist, so the error-aware assembler fails where the claim promises no error. -/
theorem assembler_perimeter_unguarded :
    extract_featuresE [⟨"a", ⟨0, 1, 0⟩, ⟨1, 1, 1⟩, 1⟩] ⟨4, 100, -4⟩ = none := by
  norm_num [extract_featuresE, calculate_cog_penaltyE, calculate_support_ratio_penaltyE,
    support_ratio_oneE, calculate_overhang_penaltyE, overhang_oneE, per_item_blockE, divE,
    supported_area, calculate_overlap_area, calculate_item_center, is_below, pymin, pymax,
    sort_le, List.range, List.range.loop, List.mapM_cons, List.mapM_nil]

example :
    extract_features [⟨"a", ⟨0, 0, 0⟩, ⟨10, 10, 10⟩, 5⟩] BOX =
      [1/20, 1/20, 1/20, 1, 0, 1/10, 1/4, 1/100, 1/100, 1/20] ++ List.replicate 20 0 := by
  norm_num [extract_features, calculate_cog_penalty, calculate_support_ratio_penalty,
    calculate_overhang_penalty, support_ratio_one, overhang_one, supported_area,
    calculate_overlap_area, calculate_item_center, is_below, per_item_block,
    pymin, pymax, sort_le, BOX, List.replicate, List.range, List.range.loop]

end StabilityModel
